import Mathlib

/-!
Verification of the TrustBridge chatbot transfer-orchestration core:
a shallow embedding of the conversation wizard (src/index.ts,
handleTransferFlow), the exchange-rate resolver (exchangeRate.ts,
getExchangeRate), the webhook signature check (webhookSecurity.js,
verifySignature) and the status poller (services/pollingService.ts),
together with theorems settling the specification claims about them.

Numbers are modelled as exact rationals, timestamps as naturals
(milliseconds), JS Map objects as association lists with first-match
lookup, and the external collaborators (rate providers, backend REST
service, HMAC primitive) as oracle parameters, matching the spec
boundary that treats them as interfaces only.
-/

namespace TrustBridge

/-! ## JS Map model: association lists with first-match lookup -/

/-- Lookup of the first entry with the given key (JS Map.get). -/
def mapGet {β : Type} : List (String × β) → String → Option β
  | [], _ => none
  | (k', v) :: rest, k => if k' = k then some v else mapGet rest k

/-- JS Map.set: replace the value of the first entry with the key,
or append a new entry when the key is absent. -/
def mapSet {β : Type} : List (String × β) → String → β → List (String × β)
  | [], k, v => [(k, v)]
  | (k', v') :: rest, k, v =>
    if k' = k then (k, v) :: rest else (k', v') :: mapSet rest k v

/-- In-place update of the value stored under a key that may be present;
when the key is absent nothing changes.  This models a JS mutation of an
object already held by the map (the map itself is not touched). -/
def mapUpdate {β : Type} : List (String × β) → String → β → List (String × β)
  | [], _, _ => []
  | (k', v') :: rest, k, v =>
    if k' = k then (k, v) :: rest else (k', v') :: mapUpdate rest k v

/-- JS Map.delete: remove the first entry with the given key. -/
def mapDelete {β : Type} : List (String × β) → String → List (String × β)
  | [], _ => []
  | (k', v') :: rest, k => if k' = k then rest else (k', v') :: mapDelete rest k

/-- Number of entries stored under a key (a well-formed JS Map has at most one). -/
def countKey {β : Type} (m : List (String × β)) (k : String) : Nat :=
  m.countP (fun p => p.1 == k)

/-! ## Exchange-rate resolver (exchangeRate.ts) -/

/-- Rate cache entry: numeric rate plus fetch timestamp in ms. -/
structure CacheEntry where
  rate : ℚ
  timestamp : ℕ
deriving DecidableEq

/-- The module-level exchangeRateCache map, keyed by the string built in cacheKey. -/
abbrev RateCache := List (String × CacheEntry)

/-- CACHE_DURATION = 5 * 60 * 1000 ms. -/
def CACHE_DURATION : ℕ := 5 * 60 * 1000

/-- Cache key string, as built inline in getExchangeRate. -/
def cacheKey (fromCurrency toCurrency : String) : String :=
  fromCurrency ++ "-" ++ toCurrency

/-- SUPPORTED_FIAT list from fiatExchange.ts. -/
def SUPPORTED_FIAT : List String :=
  ["USD", "EUR", "JPY", "AUD", "CAD", "SGD", "MYR", "THB", "PHP", "BND", "CNY", "IDR"]

/-- Hardcoded FALLBACK_RATES table (USDT and IDR only); 0.0000597 exactly. -/
def FALLBACK_RATES (fromCurrency toCurrency : String) : Option ℚ :=
  if fromCurrency = "USDT" ∧ toCurrency = "IDR" then some 16740
  else if fromCurrency = "IDR" ∧ toCurrency = "USDT" then some (597 / 10000000)
  else none

/-- Background sweep (setInterval body) deleting every entry strictly older
than CACHE_DURATION. -/
def autoClearExpired (now : ℕ) (c : RateCache) : RateCache :=
  c.filter (fun p => !(decide (CACHE_DURATION < now - p.2.timestamp)))

/-- One delegation to a provider collaborator.  The routing in the try block
of getExchangeRate: fiat pairs go to getFiatRate, USDT to IDR directly to
fetchCryptoPrice, IDR to USDT as the reciprocal of the forward quote, any
other pair as a direct query.  The oracle returns none when the provider
throws.  Every branch performs exactly one delegation. -/
def routeFetch (fetch : String → String → Option ℚ)
    (fromCurrency toCurrency : String) : Option ℚ :=
  if SUPPORTED_FIAT.contains fromCurrency ∧ SUPPORTED_FIAT.contains toCurrency then
    fetch fromCurrency toCurrency
  else if fromCurrency = "USDT" ∧ toCurrency = "IDR" then
    fetch "USDT" "IDR"
  else if fromCurrency = "IDR" ∧ toCurrency = "USDT" then
    (fetch "USDT" "IDR").map (fun r => 1 / r)
  else
    fetch fromCurrency toCurrency

/-- Result of one getExchangeRate call: the returned rate, the cache state
after the call, and how many provider delegations were issued. -/
structure RateResult where
  rate : ℚ
  cache : RateCache
  providerCalls : ℕ
deriving DecidableEq

/-- getExchangeRate (exchangeRate.ts lines 178-236).  Same currency returns
1.0 with no I/O; a cache entry younger than CACHE_DURATION is returned as
fresh; otherwise one provider delegation is issued, a success is written to
the cache, and a failure falls back to FALLBACK_RATES and then to 1.0
without touching the cache. -/
def getExchangeRate (fetch : String → String → Option ℚ) (now : ℕ)
    (cache : RateCache) (fromCurrency toCurrency : String) : RateResult :=
  if fromCurrency = toCurrency then ⟨1, cache, 0⟩
  else
    let key := cacheKey fromCurrency toCurrency
    let fresh : Option ℚ :=
      match mapGet cache key with
      | some cached =>
        if now - cached.timestamp < CACHE_DURATION then some cached.rate else none
      | none => none
    match fresh with
    | some r => ⟨r, cache, 0⟩
    | none =>
      match routeFetch fetch fromCurrency toCurrency with
      | some rate => ⟨rate, mapSet cache key ⟨rate, now⟩, 1⟩
      | none =>
        match FALLBACK_RATES fromCurrency toCurrency with
        | some fb => ⟨fb, cache, 1⟩
        | none => ⟨1, cache, 1⟩

/-! ## Webhook signature verification (webhookSecurity.js) -/

/-- Hex digit test, as Buffer.from(s, hex) accepts. -/
def isHexDigit (c : Char) : Bool :=
  c.isDigit || ('a' ≤ c && c ≤ 'f') || ('A' ≤ c && c ≤ 'F')

/-- Numeric value of a hex digit. -/
def hexVal (c : Char) : ℕ :=
  if c.isDigit then c.toNat - '0'.toNat
  else if 'a' ≤ c && c ≤ 'f' then c.toNat - 'a'.toNat + 10
  else c.toNat - 'A'.toNat + 10

/-- Node Buffer.from(s, hex): decode pairs of hex digits, stopping at the
first invalid pair or odd leftover character. -/
def hexDecode : List Char → List ℕ
  | c1 :: c2 :: rest =>
    if isHexDigit c1 && isHexDigit c2 then
      (16 * hexVal c1 + hexVal c2) :: hexDecode rest
    else []
  | _ => []

/-- verifySignature (webhookSecurity.js lines 22-41).  The hmacHex oracle
stands for the HMAC-SHA256 hex digest of the payload under the secret; the
secret is the WEBHOOK_SECRET environment value, empty when unconfigured.
With no secret the function returns true unconditionally; it takes no
deployment-environment input at all.  Otherwise both hex strings are
decoded to byte buffers, a length mismatch rejects, and equal-length
buffers are compared bytewise (crypto.timingSafeEqual). -/
def verifySignature (hmacHex : String → String → String)
    (secret payload signature : String) : Bool :=
  if secret = "" then true
  else
    let expected := hexDecode (hmacHex secret payload).data
    let actual := hexDecode signature.data
    if expected.length ≠ actual.length then false
    else expected == actual

/-! ## JS string primitives, modelled over the character list (ASCII) -/

/-- ASCII lower-casing of one character (JS toLowerCase on the inputs the
wizard compares). -/
def lcChar (c : Char) : Char :=
  if 'A' ≤ c ∧ c ≤ 'Z' then Char.ofNat (c.toNat + 32) else c

/-- ASCII upper-casing of one character. -/
def ucChar (c : Char) : Char :=
  if 'a' ≤ c ∧ c ≤ 'z' then Char.ofNat (c.toNat - 32) else c

/-- JS String.prototype.trim: strip leading and trailing whitespace. -/
def jsTrim (s : String) : String :=
  ⟨((s.data.dropWhile Char.isWhitespace).reverse.dropWhile Char.isWhitespace).reverse⟩

/-- JS String.prototype.toLowerCase (ASCII). -/
def jsToLower (s : String) : String :=
  ⟨s.data.map lcChar⟩

/-- JS String.prototype.toUpperCase (ASCII). -/
def jsToUpper (s : String) : String :=
  ⟨s.data.map ucChar⟩

/-! ## Conversation state machine (index.ts, handleTransferFlow) -/

/-- SUPPORTED_MOCK_TOKENS for WALLET payment (index.ts line 22). -/
def SUPPORTED_MOCK_TOKENS : List String :=
  ["mockADA", "mockUSDC", "mockIDRX", "mockEUROC", "mockJPYC", "mockCNHT", "mockMXNT"]

/-- Wizard step union type (index.ts lines 38-49). -/
inductive Step
  | payment_method
  | sender_currency
  | recipient_name
  | recipient_currency
  | recipient_bank
  | recipient_account
  | amount
  | card_number
  | card_cvc
  | card_expiry
  | confirmation
deriving DecidableEq

/-- Payment method union (WALLET or MASTERCARD). -/
inductive PayMethod
  | WALLET
  | MASTERCARD
deriving DecidableEq

/-- Transfer draft accumulated by the wizard (index.ts lines 50-62);
absent optional fields are none. -/
structure TransferData where
  paymentMethod : Option PayMethod := none
  recipientName : Option String := none
  recipientCurrency : Option String := none
  recipientBank : Option String := none
  recipientAccount : Option String := none
  senderCurrency : Option String := none
  amount : Option String := none
  cardNumber : Option String := none
  cardCvc : Option String := none
  cardExpiry : Option String := none
deriving DecidableEq

/-- Active transfer flow: current step plus draft.  The absence of a flow
(idle session) is modelled as none at the use sites. -/
structure TransferFlow where
  step : Step
  data : TransferData
deriving DecidableEq

/-- One tag per message.reply site inside handleTransferFlow; the exact
message texts are presentation and are not modelled. -/
inductive Reply
  | cancelledFromName
  | backToRecipientName
  | backToRecipientCurrency
  | backToRecipientBank
  | backToRecipientAccount
  | backToAmount
  | invalidPaymentMethod
  | askRecipientName
  | askRecipientCurrency
  | invalidRecipientCurrency
  | askRecipientBank
  | askRecipientAccount
  | invalidAccountNumber
  | askSenderFiat
  | askSenderToken
  | invalidAmount
  | confirmationSummary
  | rateError
  | invalidCardNumber
  | askCardCvc
  | invalidCardCvc
  | askCardExpiry
  | invalidCardExpiry
  | askAmountAfterCard
  | unsupportedFiat
  | unsupportedToken
  | askCardNumber
  | askAmount
  | authenticating
  | walletCreating
  | walletSuccess
  | mastercardProcessing
  | mastercardSuccess
  | createTxFailed
  | cancelledAtConfirmation
deriving DecidableEq

/-- Outcome of the backend collaborator work in the confirm branch:
authentication failure, transaction-creation failure, or success. -/
inductive BackendOutcome
  | authFail
  | createFail
  | success
deriving DecidableEq

/-- Nonempty all-digit test, the regex of recipient_account and the card
fields anchored over the whole string. -/
def isDigits (s : String) : Bool :=
  s.length != 0 && s.data.all Char.isDigit

/-- userInput.replace with the whitespace class and empty replacement. -/
def stripWhitespace (s : String) : String :=
  ⟨s.data.filter (fun c => !c.isWhitespace)⟩

/-- Card expiry regex: MM slash YY or YYYY with month 01 to 12. -/
def isExpiry (s : String) : Bool :=
  match s.data with
  | c0 :: c1 :: '/' :: rest =>
    ((c0 == '0' && c1.isDigit && c1 != '0') ||
     (c0 == '1' && (c1 == '0' || c1 == '1' || c1 == '2'))) &&
    rest.all Char.isDigit && (rest.length == 2 || rest.length == 4)
  | _ => false

/-- Leading-number parser modelling parseFloat on the amount input: an
optional sign, then digits with an optional single decimal point; trailing
characters are ignored as parseFloat ignores them; none when no number can
be read (NaN).  Exponents are not modelled. -/
def parseDigitsRun : List Char → ℕ → ℕ × ℕ
  | [], acc => (acc, 0)
  | c :: rest, acc =>
    if c.isDigit then
      let (v, n) := parseDigitsRun rest (10 * acc + (c.toNat - '0'.toNat))
      (v, n + 1)
    else (acc, 0)

/-- Digits actually consumed by parseDigitsRun before the first non-digit. -/
def takeDigits (l : List Char) : List Char :=
  l.takeWhile Char.isDigit

/-- parseFloat model: see parseDigitsRun. -/
def parseAmount (s : String) : Option ℚ :=
  let (sign, body) :=
    match s.data with
    | '-' :: rest => ((-1 : ℚ), rest)
    | '+' :: rest => ((1 : ℚ), rest)
    | l => ((1 : ℚ), l)
  let intPart := takeDigits body
  let afterInt := body.drop intPart.length
  let fracPart :=
    match afterInt with
    | '.' :: rest => takeDigits rest
    | _ => []
  if intPart.isEmpty ∧ fracPart.isEmpty then none
  else
    let intVal : ℚ := (parseDigitsRun intPart 0).1
    let fracVal : ℚ := (parseDigitsRun fracPart 0).1 / (10 : ℚ) ^ fracPart.length
    some (sign * (intVal + fracVal))

/-- The main per-step switch of handleTransferFlow (index.ts lines
182-519), reached when the input is not handled by the back switch.
userInput is the already-trimmed text.  quoteOk models the try block
around the confirmation-quote computation at the amount step (its catch
fires on collaborator transport failures; the resolver itself catches all
provider errors); backend models the try block of the confirm branch.
The result is the transferFlow field after the call (none when deleted)
paired with the replies sent. -/
def transferMainSwitch (backend : BackendOutcome) (quoteOk : Bool)
    (userInput : String) (flow : TransferFlow) : Option TransferFlow × List Reply :=
  let data := flow.data
  match flow.step with
  | .payment_method =>
    let pm := jsToUpper userInput
    if pm ≠ "WALLET" ∧ pm ≠ "MASTERCARD" then
      (some flow, [.invalidPaymentMethod])
    else
      let pmv := if pm = "WALLET" then PayMethod.WALLET else PayMethod.MASTERCARD
      (some ⟨.recipient_name, { data with paymentMethod := some pmv }⟩, [.askRecipientName])
  | .recipient_name =>
    (some ⟨.recipient_currency, { data with recipientName := some userInput }⟩,
      [.askRecipientCurrency])
  | .recipient_currency =>
    let currency := jsToUpper userInput
    if currency ≠ "IDR" then (some flow, [.invalidRecipientCurrency])
    else
      (some ⟨.recipient_bank, { data with recipientCurrency := some currency }⟩,
        [.askRecipientBank])
  | .recipient_bank =>
    (some ⟨.recipient_account, { data with recipientBank := some userInput }⟩,
      [.askRecipientAccount])
  | .recipient_account =>
    if !isDigits userInput then (some flow, [.invalidAccountNumber])
    else
      let data' := { data with recipientAccount := some userInput }
      if data.paymentMethod = some .MASTERCARD then
        (some ⟨.sender_currency, data'⟩, [.askSenderFiat])
      else
        (some ⟨.sender_currency, data'⟩, [.askSenderToken])
  | .amount =>
    match parseAmount userInput with
    | none => (some flow, [.invalidAmount])
    | some a =>
      if a ≤ 0 then (some flow, [.invalidAmount])
      else
        let data' := { data with amount := some userInput }
        if quoteOk then (some ⟨.confirmation, data'⟩, [.confirmationSummary])
        else (none, [.rateError])
  | .card_number =>
    let digits := stripWhitespace userInput
    if isDigits digits && decide (13 ≤ digits.length) && decide (digits.length ≤ 19) then
      (some ⟨.card_cvc, { data with cardNumber := some digits }⟩, [.askCardCvc])
    else (some flow, [.invalidCardNumber])
  | .card_cvc =>
    if isDigits userInput && (userInput.length == 3 || userInput.length == 4) then
      (some ⟨.card_expiry, { data with cardCvc := some userInput }⟩, [.askCardExpiry])
    else (some flow, [.invalidCardCvc])
  | .card_expiry =>
    if isExpiry userInput then
      (some ⟨.amount, { data with cardExpiry := some userInput }⟩, [.askAmountAfterCard])
    else (some flow, [.invalidCardExpiry])
  | .sender_currency =>
    if data.paymentMethod = some .MASTERCARD then
      let upperCode := jsToUpper userInput
      if SUPPORTED_FIAT.contains upperCode then
        (some ⟨.card_number, { data with senderCurrency := some upperCode }⟩, [.askCardNumber])
      else (some flow, [.unsupportedFiat])
    else
      if SUPPORTED_MOCK_TOKENS.contains userInput then
        (some ⟨.amount, { data with senderCurrency := some userInput }⟩, [.askAmount])
      else (some flow, [.unsupportedToken])
  | .confirmation =>
    if jsToLower userInput = "confirm" then
      match backend with
      | .authFail => (none, [.authenticating, .createTxFailed])
      | .createFail =>
        if data.paymentMethod = some .MASTERCARD then
          (none, [.authenticating, .mastercardProcessing, .createTxFailed])
        else
          (none, [.authenticating, .walletCreating, .createTxFailed])
      | .success =>
        if data.paymentMethod = some .MASTERCARD then
          (none, [.authenticating, .mastercardProcessing, .mastercardSuccess])
        else
          (none, [.authenticating, .walletCreating, .walletSuccess])
    else if jsToLower userInput = "cancel" then
      (none, [.cancelledAtConfirmation])
    else
      (some flow, [])

/-- handleTransferFlow (index.ts lines 92-519): trim the input, run the
back switch first (it lists only six of the eleven steps and falls
through to the main switch for the others), then the per-step switch. -/
def handleTransferFlow (backend : BackendOutcome) (quoteOk : Bool)
    (input : String) (flow : TransferFlow) : Option TransferFlow × List Reply :=
  let userInput := jsTrim input
  let data := flow.data
  if jsToLower userInput = "back" then
    match flow.step with
    | .recipient_name => (none, [.cancelledFromName])
    | .recipient_currency =>
      (some ⟨.recipient_name, { data with recipientName := none }⟩, [.backToRecipientName])
    | .recipient_bank =>
      (some ⟨.recipient_currency, { data with recipientCurrency := none }⟩,
        [.backToRecipientCurrency])
    | .recipient_account =>
      (some ⟨.recipient_bank, { data with recipientBank := none }⟩, [.backToRecipientBank])
    | .amount =>
      (some ⟨.recipient_account,
        { data with recipientAccount := none, senderCurrency := none }⟩,
        [.backToRecipientAccount])
    | .confirmation =>
      (some ⟨.amount, { data with amount := none }⟩, [.backToAmount])
    | _ => transferMainSwitch backend quoteOk userInput flow
  else
    transferMainSwitch backend quoteOk userInput flow

/-! ## Status poller (services/pollingService.ts) -/

/-- PollingTask record (pollingService.ts lines 7-13). -/
structure PollingTask where
  transferId : String
  chatId : String
  startTime : ℕ
  lastStatus : String
  pollCount : ℕ
deriving DecidableEq

/-- PollingService static state: the activeTasks map and whether the shared
interval timer is running (pollingInterval non-null). -/
structure PollState where
  activeTasks : List (String × PollingTask)
  intervalRunning : Bool
deriving DecidableEq

/-- MAX_POLL_DURATION = 30 minutes in ms. -/
def MAX_POLL_DURATION : ℕ := 30 * 60 * 1000

/-- MAX_POLL_COUNT = 120 polls. -/
def MAX_POLL_COUNT : ℕ := 120

/-- Observable actions of one tick: a delegation to
BackendService.getTransactionStatus, or one of the three notification
sends, each tagged with the transfer id of the task that caused it. -/
inductive PollEvent
  | statusFetch (transferId : String)
  | timeoutMsg (transferId chatId : String)
  | statusMsg (transferId chatId status : String)
  | errorMsg (transferId chatId : String)
deriving DecidableEq

/-- The transfer id an event is tagged with. -/
def tagOf : PollEvent → String
  | .statusFetch t => t
  | .timeoutMsg t _ => t
  | .statusMsg t _ _ => t
  | .errorMsg t _ => t

/-- Timeout notifications for a given id among the emitted events. -/
def countTimeout (id : String) (evs : List PollEvent) : ℕ :=
  evs.countP (fun e => match e with | .timeoutMsg t _ => t == id | _ => false)

/-- Status fetches issued for a given id among the emitted events. -/
def countFetch (id : String) (evs : List PollEvent) : ℕ :=
  evs.countP (fun e => match e with | .statusFetch t => t == id | _ => false)

/-- startPolling (pollingService.ts lines 36-57): a no-op when the id is
already tracked, otherwise insert a fresh task with lastStatus PENDING and
pollCount 0 and start the shared timer when it is not running. -/
def startPolling (now : ℕ) (s : PollState) (transferId chatId : String) : PollState :=
  if (mapGet s.activeTasks transferId).isSome then s
  else
    let s' : PollState :=
      { s with activeTasks :=
          mapSet s.activeTasks transferId ⟨transferId, chatId, now, "PENDING", 0⟩ }
    if s'.intervalRunning then s' else { s' with intervalRunning := true }

/-- stopPolling (lines 62-73): delete the task and cancel the shared timer
when no task remains. -/
def stopPolling (s : PollState) (transferId : String) : PollState :=
  let tasks := mapDelete s.activeTasks transferId
  ⟨tasks, if tasks.isEmpty then false else s.intervalRunning⟩

/-- isTerminalStatus (lines 141-143). -/
def isTerminalStatus (status : String) : Bool :=
  ["COMPLETED", "FAILED", "CANCELLED"].contains (jsToUpper status)

/-- pollTask (lines 100-136) for one task from the tick snapshot; the
fetchStatus oracle is BackendService.getTransactionStatus, none when it
throws.  The poll-count increment mutates the task object shared with the
map, hence the mapUpdate of the stored entry; on timeout the task is
removed after exactly one timeout notification and no status fetch; on a
status change the task is updated and notified, and removed when the new
status is terminal; on a fetch error past the streak threshold the task
is removed after an error notification, below it the error is swallowed. -/
def pollTask (fetchStatus : String → Option String) (now : ℕ)
    (s : PollState) (task : PollingTask) : PollState × List PollEvent :=
  let task' := { task with pollCount := task.pollCount + 1 }
  let s' : PollState := { s with activeTasks := mapUpdate s.activeTasks task.transferId task' }
  let elapsed := now - task.startTime
  if MAX_POLL_DURATION < elapsed ∨ MAX_POLL_COUNT < task'.pollCount then
    (stopPolling s' task.transferId, [.timeoutMsg task.transferId task.chatId])
  else
    match fetchStatus task.transferId with
    | some status =>
      if status ≠ task.lastStatus then
        let task'' := { task' with lastStatus := status }
        let s'' : PollState :=
          { s with activeTasks := mapUpdate s.activeTasks task.transferId task'' }
        if isTerminalStatus status then
          (stopPolling s'' task.transferId,
            [.statusFetch task.transferId, .statusMsg task.transferId task.chatId status])
        else
          (s'', [.statusFetch task.transferId, .statusMsg task.transferId task.chatId status])
      else
        (s', [.statusFetch task.transferId])
    | none =>
      if 10 < task'.pollCount then
        (stopPolling s' task.transferId,
          [.statusFetch task.transferId, .errorMsg task.transferId task.chatId])
      else
        (s', [.statusFetch task.transferId])

/-- The for-loop of pollAllTasks over the snapshot list of tasks. -/
def pollList (fetchStatus : String → Option String) (now : ℕ)
    (l : List PollingTask) (s : PollState) : PollState × List PollEvent :=
  match l with
  | [] => (s, [])
  | task :: rest =>
    let r₁ := pollTask fetchStatus now s task
    let r₂ := pollList fetchStatus now rest r₁.1
    (r₂.1, r₁.2 ++ r₂.2)

/-- pollAllTasks (lines 89-95): snapshot the task values, then poll each. -/
def pollAllTasks (fetchStatus : String → Option String) (now : ℕ)
    (s : PollState) : PollState × List PollEvent :=
  pollList fetchStatus now (s.activeTasks.map Prod.snd) s

/-- A sequence of timer ticks, each with its own wall-clock time and
backend oracle; events of all ticks are concatenated. -/
def runTicks : List (ℕ × (String → Option String)) → PollState → PollState × List PollEvent
  | [], s => (s, [])
  | (now, f) :: rest, s =>
    let r₁ := pollAllTasks f now s
    let r₂ := runTicks rest r₁.1
    (r₂.1, r₁.2 ++ r₂.2)

/-- Well-formedness of the task map: every entry is stored under the
transfer id of its task, as every insertion site guarantees. -/
def KeysMatch (m : List (String × PollingTask)) : Prop :=
  ∀ p ∈ m, p.1 = p.2.transferId

/-! ## Concrete sample states used by counterexamples and witnesses -/

/-- A WALLET draft as accumulated after the recipient_account step. -/
def sampleDraft : TransferData :=
  { paymentMethod := some .WALLET, recipientName := some "Alice",
    recipientCurrency := some "IDR", recipientBank := some "BCA",
    recipientAccount := some "12345" }

/-- A complete WALLET draft as it stands at the confirmation step. -/
def confirmDraft : TransferData :=
  { paymentMethod := some .WALLET, recipientName := some "Alice",
    recipientCurrency := some "IDR", recipientBank := some "BCA",
    recipientAccount := some "12345", senderCurrency := some "mockADA",
    amount := some "100" }

/-- A cache holding one entry, fetched at time 0, for a pair that has no
static fallback rate. -/
def staleCache : RateCache := [(cacheKey "AAA" "BBB", ⟨5, 0⟩)]

/-- A poller state tracking a single transaction started at time 0. -/
def witnessPollState : PollState :=
  ⟨[("tx1", ⟨"tx1", "chatA", 0, "PENDING", 0⟩)], true⟩

/-! ## Helper lemmas about the map model -/

theorem mapGet_mapSet_self {β : Type} (m : List (String × β)) (k : String) (v : β) :
    mapGet (mapSet m k v) k = some v := by
  induction m with
  | nil => simp [mapSet, mapGet]
  | cons p rest ih =>
    obtain ⟨k', v'⟩ := p
    by_cases h : k' = k
    · simp [mapSet, mapGet, h]
    · simp [mapSet, mapGet, h, ih]

/-! ## Claim theorems: conversation state machine -/

/-- C1: the code bug.  From the recipient_name step the reserved input
back does cancel the transfer (the flow is removed).  From the
payment_method step, however, the back switch has no case, so back falls
through to the payment-method validator, which replies invalid payment
method and leaves the flow at payment_method with the draft untouched —
although the prompt shown on entering the step says that back cancels
the transfer.  This theorem evaluates the code at the failing input. -/
theorem C1_back_at_first_steps (b : BackendOutcome) (q : Bool) (d : TransferData) :
    handleTransferFlow b q "back" ⟨.recipient_name, d⟩ = (none, [.cancelledFromName]) ∧
    handleTransferFlow b q "back" ⟨.payment_method, d⟩
      = (some ⟨.payment_method, d⟩, [.invalidPaymentMethod]) := by
  exact ⟨rfl, rfl⟩

/-- C2 counterexample: at the sender_currency step (a step after the
first, populated by the wizard between recipient_account and amount) the
input back is not recognized by the back switch at all; the step
validator runs instead, replies unsupported token, and the state is
returned unchanged — no move to the preceding step, no field deleted. -/
theorem C2_cex_back_ignored_at_sender_currency :
    handleTransferFlow .success true "back" ⟨.sender_currency, sampleDraft⟩
      = (some ⟨.sender_currency, sampleDraft⟩, [.unsupportedToken]) := by
  rfl

/-- C2 amended: back is evaluated before the step validator only at the
six steps listed in the back switch.  There it moves recipient_currency
to recipient_name deleting recipientName, recipient_bank to
recipient_currency deleting recipientCurrency, recipient_account to
recipient_bank deleting recipientBank, confirmation to amount deleting
amount — one field each, all earlier fields unchanged — while amount
moves to recipient_account deleting the two fields recipientAccount and
senderCurrency (skipping sender_currency and any card steps).  At
sender_currency, card_number, card_cvc and card_expiry the token is
passed to the step validator and the state is left unchanged. -/
theorem C2_back_navigation_as_implemented (b : BackendOutcome) (q : Bool) (d : TransferData) :
    (handleTransferFlow b q "back" ⟨.recipient_currency, d⟩
      = (some ⟨.recipient_name, { d with recipientName := none }⟩, [.backToRecipientName])) ∧
    (handleTransferFlow b q "back" ⟨.recipient_bank, d⟩
      = (some ⟨.recipient_currency, { d with recipientCurrency := none }⟩,
          [.backToRecipientCurrency])) ∧
    (handleTransferFlow b q "back" ⟨.recipient_account, d⟩
      = (some ⟨.recipient_bank, { d with recipientBank := none }⟩, [.backToRecipientBank])) ∧
    (handleTransferFlow b q "back" ⟨.amount, d⟩
      = (some ⟨.recipient_account,
          { d with recipientAccount := none, senderCurrency := none }⟩,
          [.backToRecipientAccount])) ∧
    (handleTransferFlow b q "back" ⟨.confirmation, d⟩
      = (some ⟨.amount, { d with amount := none }⟩, [.backToAmount])) ∧
    ((handleTransferFlow b q "back" ⟨.sender_currency, d⟩).1 = some ⟨.sender_currency, d⟩) ∧
    (handleTransferFlow b q "back" ⟨.card_number, d⟩
      = (some ⟨.card_number, d⟩, [.invalidCardNumber])) ∧
    (handleTransferFlow b q "back" ⟨.card_cvc, d⟩
      = (some ⟨.card_cvc, d⟩, [.invalidCardCvc])) ∧
    (handleTransferFlow b q "back" ⟨.card_expiry, d⟩
      = (some ⟨.card_expiry, d⟩, [.invalidCardExpiry])) := by
  refine ⟨rfl, rfl, rfl, rfl, rfl, ?_, rfl, rfl, rfl⟩
  have h : handleTransferFlow b q "back" ⟨.sender_currency, d⟩
      = (if d.paymentMethod = some PayMethod.MASTERCARD
         then (some ⟨.sender_currency, d⟩, [Reply.unsupportedFiat])
         else (some ⟨.sender_currency, d⟩, [Reply.unsupportedToken])) := rfl
  rw [h]
  split <;> rfl

/-- C3 counterexample: at the confirmation step the input hello — none
of confirm, cancel, back — produces no reply at all: the confirmation
case has no else branch, so the input is silently consumed.  The claim
says a re-prompt message is emitted. -/
theorem C3_cex_unknown_confirmation_input_silent :
    handleTransferFlow .success true "hello" ⟨.confirmation, confirmDraft⟩
      = (some ⟨.confirmation, confirmDraft⟩, []) := by
  rfl

/-- C3 amended: at the confirmation step every input that is none of the
three tokens confirm, cancel, back (case-insensitively, after trimming)
leaves the step at confirmation and the draft unchanged, but no re-prompt
is emitted — the input is silently ignored. -/
theorem C3_confirmation_unknown_input (b : BackendOutcome) (q : Bool)
    (input : String) (d : TransferData)
    (h1 : jsToLower (jsTrim input) ≠ "confirm")
    (h2 : jsToLower (jsTrim input) ≠ "cancel")
    (h3 : jsToLower (jsTrim input) ≠ "back") :
    handleTransferFlow b q input ⟨.confirmation, d⟩ = (some ⟨.confirmation, d⟩, []) := by
  simp only [handleTransferFlow, transferMainSwitch, if_neg h3, if_neg h1, if_neg h2]

/-- C3 witness: the amended theorem applied at the concrete input proceed. -/
theorem C3_witness :
    (jsToLower (jsTrim "proceed") ≠ "confirm" ∧ jsToLower (jsTrim "proceed") ≠ "cancel" ∧
      jsToLower (jsTrim "proceed") ≠ "back") ∧
    handleTransferFlow .success true "proceed" ⟨.confirmation, confirmDraft⟩
      = (some ⟨.confirmation, confirmDraft⟩, []) := by
  exact ⟨⟨by decide, by decide, by decide⟩,
    C3_confirmation_unknown_input .success true "proceed" confirmDraft
      (by decide) (by decide) (by decide)⟩

/-! ## Claim theorems: exchange-rate resolver -/

/-- C4 counterexample: the cache holds an entry with rate 5 for the pair
AAA to BBB whose age equals the TTL, the provider fails, and the pair has
no static fallback — yet the resolver returns the neutral 1, not the
expired rate 5: the catch branch never consults the cache. -/
theorem C4_cex_expired_entry_not_reused :
    getExchangeRate (fun _ _ => none) CACHE_DURATION staleCache "AAA" "BBB"
      = ⟨1, staleCache, 1⟩ ∧ (5 : ℚ) ≠ 1 := by
  exact ⟨rfl, by decide⟩

/-- C4 amended: an entry at least CACHE_DURATION old is never returned
as fresh — the resolver always proceeds to a provider delegation — but
when that delegation fails and no static fallback exists, the resolver
returns the neutral 1.0; the expired entry is not reused. -/
theorem C4_expired_entry_behaviour (fetch : String → String → Option ℚ)
    (now : ℕ) (c : RateCache) (f t : String) (e : CacheEntry)
    (hne : f ≠ t)
    (hget : mapGet c (cacheKey f t) = some e)
    (hexp : CACHE_DURATION ≤ now - e.timestamp) :
    (∀ r, routeFetch fetch f t = some r →
      getExchangeRate fetch now c f t = ⟨r, mapSet c (cacheKey f t) ⟨r, now⟩, 1⟩) ∧
    (routeFetch fetch f t = none → FALLBACK_RATES f t = none →
      getExchangeRate fetch now c f t = ⟨1, c, 1⟩) := by
  have hlt : ¬ (now - e.timestamp < CACHE_DURATION) := not_lt.mpr hexp
  constructor
  · intro r hr
    simp [getExchangeRate, hne, hget, hlt, hr]
  · intro hr hfb
    simp [getExchangeRate, hne, hget, hlt, hr, hfb]

/-- C4 witness: the amended theorem applied to the concrete stale cache. -/
theorem C4_witness :
    ("AAA" : String) ≠ "BBB" ∧
    mapGet staleCache (cacheKey "AAA" "BBB") = some ⟨5, 0⟩ ∧
    CACHE_DURATION ≤ CACHE_DURATION - 0 ∧
    getExchangeRate (fun _ _ => none) CACHE_DURATION staleCache "AAA" "BBB"
      = ⟨1, staleCache, 1⟩ := by
  refine ⟨by decide, rfl, by decide, ?_⟩
  exact (C4_expired_entry_behaviour (fun _ _ => none) CACHE_DURATION staleCache
    "AAA" "BBB" ⟨5, 0⟩ (by decide) rfl (by decide)).2 rfl rfl

/-- C6 counterexample: when the provider throws, nothing is cached, so
two calls for the same ordered pair within the TTL window (times 0 and
1000) each issue a provider delegation — two calls, not at most one. -/
theorem C6_cex_two_provider_calls_within_ttl :
    (getExchangeRate (fun _ _ => none) 0 [] "AAA" "BBB").providerCalls = 1 ∧
    (getExchangeRate (fun _ _ => none) 1000
        (getExchangeRate (fun _ _ => none) 0 [] "AAA" "BBB").cache
        "AAA" "BBB").providerCalls = 1 := by
  exact ⟨rfl, rfl⟩

/-- C6 amended: provided the first call's provider fetch succeeds, a call
for a distinct-currency pair with no prior cache entry issues exactly one
provider delegation and caches the rate; a second call within the TTL
window returns the cached rate with zero provider delegations, whatever
its own oracle would answer; a call after the TTL has expired issues a
new provider delegation instead of returning the stale entry. -/
theorem C6_cache_round_trip (fetch fetch₂ : String → String → Option ℚ)
    (c : RateCache) (f t : String) (t₀ t₁ t₂ : ℕ) (r : ℚ)
    (hne : f ≠ t)
    (hmiss : mapGet c (cacheKey f t) = none)
    (hfetch : routeFetch fetch f t = some r)
    (httl : t₁ - t₀ < CACHE_DURATION)
    (hexp : CACHE_DURATION ≤ t₂ - t₀) :
    (getExchangeRate fetch t₀ c f t = ⟨r, mapSet c (cacheKey f t) ⟨r, t₀⟩, 1⟩) ∧
    (getExchangeRate fetch₂ t₁ (mapSet c (cacheKey f t) ⟨r, t₀⟩) f t
      = ⟨r, mapSet c (cacheKey f t) ⟨r, t₀⟩, 0⟩) ∧
    ((getExchangeRate fetch₂ t₂ (mapSet c (cacheKey f t) ⟨r, t₀⟩) f t).providerCalls = 1) := by
  refine ⟨by simp [getExchangeRate, hne, hmiss, hfetch], ?_, ?_⟩
  · simp [getExchangeRate, hne, mapGet_mapSet_self, httl]
  · have hlt : ¬ (t₂ - t₀ < CACHE_DURATION) := not_lt.mpr hexp
    cases hr : routeFetch fetch₂ f t with
    | some r₂ => simp [getExchangeRate, hne, mapGet_mapSet_self, hlt, hr]
    | none =>
      cases hfb : FALLBACK_RATES f t with
      | some fb => simp [getExchangeRate, hne, mapGet_mapSet_self, hlt, hr, hfb]
      | none => simp [getExchangeRate, hne, mapGet_mapSet_self, hlt, hr, hfb]

/-- C6 witness: the amended theorem at the pair USDT to IDR with a
provider quoting 16000, calls at times 0, 1000 and CACHE_DURATION. -/
theorem C6_witness :
    ("USDT" : String) ≠ "IDR" ∧
    mapGet ([] : RateCache) (cacheKey "USDT" "IDR") = none ∧
    routeFetch (fun _ _ => some 16000) "USDT" "IDR" = some 16000 ∧
    (1000 : ℕ) - 0 < CACHE_DURATION ∧ CACHE_DURATION ≤ CACHE_DURATION - 0 ∧
    (getExchangeRate (fun _ _ => some 16000) 0 [] "USDT" "IDR"
      = ⟨16000, mapSet [] (cacheKey "USDT" "IDR") ⟨16000, 0⟩, 1⟩) ∧
    (getExchangeRate (fun _ _ => none) 1000
        (mapSet [] (cacheKey "USDT" "IDR") ⟨16000, 0⟩) "USDT" "IDR"
      = ⟨16000, mapSet [] (cacheKey "USDT" "IDR") ⟨16000, 0⟩, 0⟩) ∧
    ((getExchangeRate (fun _ _ => none) CACHE_DURATION
        (mapSet [] (cacheKey "USDT" "IDR") ⟨16000, 0⟩) "USDT" "IDR").providerCalls = 1) := by
  have h := C6_cache_round_trip (fun _ _ => some 16000) (fun _ _ => none) []
    "USDT" "IDR" 0 1000 CACHE_DURATION 16000 (by decide) rfl rfl (by decide) (by decide)
  exact ⟨by decide, rfl, rfl, by decide, by decide, h.1, h.2.1, h.2.2⟩

/-- C7: when the provider delegation fails and no fresh cache entry
exists, getExchangeRate does not propagate the failure (the model is the
total catch branch): with a static fallback for the pair it returns
exactly that table value, otherwise it returns 1.0 (the degraded flag is
a log-side effect outside the model). -/
theorem C7_provider_failure_fallback (fetch : String → String → Option ℚ)
    (now : ℕ) (c : RateCache) (f t : String)
    (hne : f ≠ t)
    (hstale : ∀ e, mapGet c (cacheKey f t) = some e → CACHE_DURATION ≤ now - e.timestamp)
    (hfail : routeFetch fetch f t = none) :
    (∀ fb, FALLBACK_RATES f t = some fb → (getExchangeRate fetch now c f t).rate = fb) ∧
    (FALLBACK_RATES f t = none → (getExchangeRate fetch now c f t).rate = 1) := by
  constructor
  · intro fb hfb
    cases hget : mapGet c (cacheKey f t) with
    | none => simp [getExchangeRate, hne, hget, hfail, hfb]
    | some e =>
      have hlt : ¬ (now - e.timestamp < CACHE_DURATION) := not_lt.mpr (hstale e hget)
      simp [getExchangeRate, hne, hget, hlt, hfail, hfb]
  · intro hfb
    cases hget : mapGet c (cacheKey f t) with
    | none => simp [getExchangeRate, hne, hget, hfail, hfb]
    | some e =>
      have hlt : ¬ (now - e.timestamp < CACHE_DURATION) := not_lt.mpr (hstale e hget)
      simp [getExchangeRate, hne, hget, hlt, hfail, hfb]

/-- C7 witness: a failing provider on USDT to IDR with an empty cache
returns the exact fallback table value 16740. -/
theorem C7_witness :
    routeFetch (fun _ _ => none) "USDT" "IDR" = none ∧
    FALLBACK_RATES "USDT" "IDR" = some 16740 ∧
    (getExchangeRate (fun _ _ => none) 0 [] "USDT" "IDR").rate = 16740 := by
  refine ⟨rfl, rfl, ?_⟩
  exact (C7_provider_failure_fallback (fun _ _ => none) 0 [] "USDT" "IDR" (by decide)
    (by intro e h; simp [mapGet] at h) rfl).1 16740 rfl

/-- C10: a failed provider delegation leaves the rate cache exactly as it
was — fallback and degraded results are never written into the cache, so
only successfully fetched rates can ever be served as fresh entries. -/
theorem C10_failure_leaves_cache_unchanged (fetch : String → String → Option ℚ)
    (now : ℕ) (c : RateCache) (f t : String)
    (hfail : routeFetch fetch f t = none) :
    (getExchangeRate fetch now c f t).cache = c := by
  by_cases hne : f = t
  · simp [getExchangeRate, hne]
  · cases hget : mapGet c (cacheKey f t) with
    | none =>
      cases hfb : FALLBACK_RATES f t with
      | some fb => simp [getExchangeRate, hne, hget, hfail, hfb]
      | none => simp [getExchangeRate, hne, hget, hfail, hfb]
    | some e =>
      by_cases hlt : now - e.timestamp < CACHE_DURATION
      · simp [getExchangeRate, hne, hget, hlt]
      · cases hfb : FALLBACK_RATES f t with
        | some fb => simp [getExchangeRate, hne, hget, hlt, hfail, hfb]
        | none => simp [getExchangeRate, hne, hget, hlt, hfail, hfb]

/-- C10 witness: a failing provider on USDT to IDR leaves the empty
cache empty even though the call returns the fallback rate. -/
theorem C10_witness :
    routeFetch (fun _ _ => none) "USDT" "IDR" = none ∧
    (getExchangeRate (fun _ _ => none) 0 [] "USDT" "IDR").cache = [] := by
  exact ⟨rfl, C10_failure_leaves_cache_unchanged (fun _ _ => none) 0 [] "USDT" "IDR" rfl⟩

/-! ## Claim theorems: webhook boundary -/

/-- C5: the code bug.  verifySignature takes no deployment-environment
input at all: whenever the secret is unconfigured (empty) it returns true
for every payload and every presented signature, in production exactly as
in development — it fails open, where the claim requires production to
fail closed.  The second conjunct shows the configured-secret path is not
vacuous: a signature decoding to a different byte length is rejected. -/
theorem C5_no_secret_accepts_everywhere (hmacHex : String → String → String)
    (payload signature : String) :
    verifySignature hmacHex "" payload signature = true ∧
    verifySignature (fun _ _ => "aa") "secret" "payload" "" = false := by
  exact ⟨rfl, rfl⟩

/-! ## Helper lemmas for the polling claims -/

theorem countKey_eq_zero_of_get_none {β : Type} (m : List (String × β)) (k : String)
    (h : mapGet m k = none) : countKey m k = 0 := by
  induction m with
  | nil => rfl
  | cons p rest ih =>
    obtain ⟨k', v'⟩ := p
    by_cases hk : k' = k
    · simp [mapGet, hk] at h
    · simp only [mapGet, if_neg hk] at h
      have h1 := ih h
      rw [countKey] at h1
      rw [countKey, List.countP_cons]
      simp [hk, h1]

theorem countKey_mapSet_of_none {β : Type} (m : List (String × β)) (k : String) (v : β)
    (h : mapGet m k = none) : countKey (mapSet m k v) k = 1 := by
  induction m with
  | nil => simp [mapSet, countKey, List.countP_cons]
  | cons p rest ih =>
    obtain ⟨k', v'⟩ := p
    by_cases hk : k' = k
    · simp [mapGet, hk] at h
    · simp only [mapGet, if_neg hk] at h
      have h1 := ih h
      rw [countKey] at h1
      simp only [mapSet, if_neg hk]
      rw [countKey, List.countP_cons]
      simp [hk, h1]

/-! ## Claim theorems: status poller -/

/-- C8: startPolling is idempotent per transfer id.  Starting an
untracked id inserts exactly one task with start time now, last status
PENDING and poll count 0; a second startPolling for the same id — at any
later time and for any chat — returns the state unchanged, so none of
the task fields are reset. -/
theorem C8_startPolling_idempotent (st : PollState) (id chat chat₂ : String) (t₀ t₁ : ℕ)
    (h : mapGet st.activeTasks id = none) :
    startPolling t₁ (startPolling t₀ st id chat) id chat₂ = startPolling t₀ st id chat ∧
    mapGet (startPolling t₀ st id chat).activeTasks id = some ⟨id, chat, t₀, "PENDING", 0⟩ ∧
    countKey (startPolling t₀ st id chat).activeTasks id = 1 := by
  have hact : (startPolling t₀ st id chat).activeTasks
      = mapSet st.activeTasks id ⟨id, chat, t₀, "PENDING", 0⟩ := by
    simp [startPolling, h, apply_ite PollState.activeTasks]
  have hget : mapGet (startPolling t₀ st id chat).activeTasks id
      = some ⟨id, chat, t₀, "PENDING", 0⟩ := by
    rw [hact]; exact mapGet_mapSet_self _ _ _
  refine ⟨?_, hget, ?_⟩
  · conv_lhs => rw [startPolling]
    simp [hget]
  · rw [hact]; exact countKey_mapSet_of_none _ _ _ h

/-- C8 witness: starting the same transfer twice from the empty state. -/
theorem C8_witness :
    mapGet (PollState.mk [] false).activeTasks "tx1" = none ∧
    startPolling 99 (startPolling 7 ⟨[], false⟩ "tx1" "chatA") "tx1" "chatB"
      = startPolling 7 ⟨[], false⟩ "tx1" "chatA" ∧
    mapGet (startPolling 7 ⟨[], false⟩ "tx1" "chatA").activeTasks "tx1"
      = some ⟨"tx1", "chatA", 7, "PENDING", 0⟩ ∧
    countKey (startPolling 7 ⟨[], false⟩ "tx1" "chatA").activeTasks "tx1" = 1 := by
  have h := C8_startPolling_idempotent ⟨[], false⟩ "tx1" "chatA" "chatB" 7 99 rfl
  exact ⟨rfl, h.1, h.2.1, h.2.2⟩

/-! ## Map-model lemmas for the tick analysis -/

theorem mapGet_none_of_countKey_zero {β : Type} (m : List (String × β)) (k : String)
    (h : countKey m k = 0) : mapGet m k = none := by
  induction m with
  | nil => rfl
  | cons p rest ih =>
    obtain ⟨k', v'⟩ := p
    rw [countKey, List.countP_cons] at h
    rw [countKey] at ih
    by_cases hk : k' = k
    · simp [hk] at h
    · simp only [mapGet, if_neg hk]
      exact ih (by simpa [hk] using h)

theorem countKey_eq_zero_iff_keys_ne {β : Type} (m : List (String × β)) (k : String) :
    countKey m k = 0 ↔ ∀ p ∈ m, p.1 ≠ k := by
  rw [countKey, List.countP_eq_zero]
  constructor
  · intro h p hp
    have := h p hp
    simpa using this
  · intro h p hp
    simpa using h p hp

theorem countKey_append {β : Type} (a b : List (String × β)) (k : String) :
    countKey (a ++ b) k = countKey a k + countKey b k := by
  simp [countKey, List.countP_append]

theorem countKey_mapUpdate_self {β : Type} (m : List (String × β)) (k : String) (v : β) :
    countKey (mapUpdate m k v) k = countKey m k := by
  induction m with
  | nil => rfl
  | cons p rest ih =>
    obtain ⟨k', v'⟩ := p
    by_cases hk : k' = k
    · subst hk
      simp [mapUpdate, countKey, List.countP_cons]
    · simp only [mapUpdate, if_neg hk]
      simp only [countKey, List.countP_cons] at ih ⊢
      omega

theorem countKey_mapUpdate_ne {β : Type} (m : List (String × β)) (k k₂ : String) (v : β)
    (h : k ≠ k₂) : countKey (mapUpdate m k v) k₂ = countKey m k₂ := by
  induction m with
  | nil => rfl
  | cons p rest ih =>
    obtain ⟨k', v'⟩ := p
    by_cases hk : k' = k
    · subst hk
      simp [mapUpdate, countKey, List.countP_cons, h]
    · simp only [mapUpdate, if_neg hk]
      simp only [countKey, List.countP_cons] at ih ⊢
      omega

theorem countKey_mapDelete_self {β : Type} (m : List (String × β)) (k : String) :
    countKey (mapDelete m k) k = countKey m k - 1 := by
  induction m with
  | nil => rfl
  | cons p rest ih =>
    obtain ⟨k', v'⟩ := p
    by_cases hk : k' = k
    · subst hk
      simp [mapDelete, countKey, List.countP_cons]
    · simp only [mapDelete, if_neg hk]
      simp only [countKey, List.countP_cons] at ih ⊢
      have hke : ((k', v').1 == k) = false := by simpa using hk
      simp [hke]
      omega

theorem countKey_mapDelete_ne {β : Type} (m : List (String × β)) (k k₂ : String)
    (h : k ≠ k₂) : countKey (mapDelete m k) k₂ = countKey m k₂ := by
  induction m with
  | nil => rfl
  | cons p rest ih =>
    obtain ⟨k', v'⟩ := p
    by_cases hk : k' = k
    · subst hk
      simp [mapDelete, countKey, List.countP_cons, h]
    · simp only [mapDelete, if_neg hk]
      simp only [countKey, List.countP_cons] at ih ⊢
      omega

theorem mem_mapUpdate {β : Type} (m : List (String × β)) (k : String) (v : β)
    (p : String × β) (h : p ∈ mapUpdate m k v) : p ∈ m ∨ p = (k, v) := by
  induction m with
  | nil => simp [mapUpdate] at h
  | cons q rest ih =>
    obtain ⟨k', v'⟩ := q
    by_cases hk : k' = k
    · simp only [mapUpdate, if_pos hk] at h
      rcases List.mem_cons.mp h with h1 | h1
      · exact Or.inr h1
      · exact Or.inl (List.mem_cons_of_mem _ h1)
    · simp only [mapUpdate, if_neg hk] at h
      rcases List.mem_cons.mp h with h1 | h1
      · exact Or.inl (h1 ▸ List.mem_cons_self _ _)
      · rcases ih h1 with h2 | h2
        · exact Or.inl (List.mem_cons_of_mem _ h2)
        · exact Or.inr h2

theorem mem_mapDelete {β : Type} (m : List (String × β)) (k : String)
    (p : String × β) (h : p ∈ mapDelete m k) : p ∈ m := by
  induction m with
  | nil => simp [mapDelete] at h
  | cons q rest ih =>
    obtain ⟨k', v'⟩ := q
    by_cases hk : k' = k
    · simp only [mapDelete, if_pos hk] at h
      exact List.mem_cons_of_mem _ h
    · simp only [mapDelete, if_neg hk] at h
      rcases List.mem_cons.mp h with h1 | h1
      · exact h1 ▸ List.mem_cons_self _ _
      · exact List.mem_cons_of_mem _ (ih h1)

theorem KeysMatch_mapUpdate (m : List (String × PollingTask)) (k : String) (v : PollingTask)
    (hm : KeysMatch m) (hv : k = v.transferId) : KeysMatch (mapUpdate m k v) := by
  intro p hp
  rcases mem_mapUpdate m k v p hp with h | h
  · exact hm p h
  · rw [h]; exact hv

theorem KeysMatch_mapDelete (m : List (String × PollingTask)) (k : String)
    (hm : KeysMatch m) : KeysMatch (mapDelete m k) := by
  intro p hp
  exact hm p (mem_mapDelete m k p hp)

/-! ## pollTask shape lemmas -/

theorem pollTask_timeout (f : String → Option String) (now : ℕ) (s : PollState)
    (u : PollingTask)
    (h : MAX_POLL_DURATION < now - u.startTime ∨ MAX_POLL_COUNT < u.pollCount + 1) :
    pollTask f now s u
      = (stopPolling
          { s with activeTasks :=
              mapUpdate s.activeTasks u.transferId { u with pollCount := u.pollCount + 1 } }
          u.transferId,
         [.timeoutMsg u.transferId u.chatId]) := by
  simp only [pollTask]
  split
  · rfl
  · rename_i hc
    exact absurd (by simpa using h) hc

theorem pollTask_state_shape (f : String → Option String) (now : ℕ) (s : PollState)
    (u : PollingTask) :
    ∃ v : PollingTask, v.transferId = u.transferId ∧
      ((pollTask f now s u).1.activeTasks = mapUpdate s.activeTasks u.transferId v ∨
       (pollTask f now s u).1.activeTasks
         = mapDelete (mapUpdate s.activeTasks u.transferId v) u.transferId) := by
  simp only [pollTask]
  split
  · refine ⟨_, ?_, Or.inr rfl⟩; rfl
  · split
    · split
      · split
        · refine ⟨_, ?_, Or.inr rfl⟩; rfl
        · refine ⟨_, ?_, Or.inl rfl⟩; rfl
      · refine ⟨_, ?_, Or.inl rfl⟩; rfl
    · split
      · refine ⟨_, ?_, Or.inr rfl⟩; rfl
      · refine ⟨_, ?_, Or.inl rfl⟩; rfl

theorem pollTask_events_shape (f : String → Option String) (now : ℕ) (s : PollState)
    (u : PollingTask) :
    (pollTask f now s u).2 = [.timeoutMsg u.transferId u.chatId] ∨
    (∃ status, (pollTask f now s u).2
        = [.statusFetch u.transferId, .statusMsg u.transferId u.chatId status]) ∨
    (pollTask f now s u).2 = [.statusFetch u.transferId] ∨
    (pollTask f now s u).2 = [.statusFetch u.transferId, .errorMsg u.transferId u.chatId] := by
  simp only [pollTask]
  split
  · exact Or.inl rfl
  · split
    · split
      · split
        · exact Or.inr (Or.inl ⟨_, rfl⟩)
        · exact Or.inr (Or.inl ⟨_, rfl⟩)
      · exact Or.inr (Or.inr (Or.inl rfl))
    · split
      · exact Or.inr (Or.inr (Or.inr rfl))
      · exact Or.inr (Or.inr (Or.inl rfl))

theorem pollTask_tags (f : String → Option String) (now : ℕ) (s : PollState)
    (u : PollingTask) : ∀ e ∈ (pollTask f now s u).2, tagOf e = u.transferId := by
  intro e he
  rcases pollTask_events_shape f now s u with h | ⟨stt, h⟩ | h | h
  · rw [h] at he; simp at he; subst he; rfl
  · rw [h] at he; simp at he; rcases he with rfl | rfl <;> rfl
  · rw [h] at he; simp at he; subst he; rfl
  · rw [h] at he; simp at he; rcases he with rfl | rfl <;> rfl

theorem pollTask_countKey_ne (f : String → Option String) (now : ℕ) (s : PollState)
    (u : PollingTask) (id : String) (h : u.transferId ≠ id) :
    countKey (pollTask f now s u).1.activeTasks id = countKey s.activeTasks id := by
  obtain ⟨v, _, hshape | hshape⟩ := pollTask_state_shape f now s u
  · rw [hshape, countKey_mapUpdate_ne _ _ _ _ h]
  · rw [hshape, countKey_mapDelete_ne _ _ _ h, countKey_mapUpdate_ne _ _ _ _ h]

theorem pollTask_keysMatch (f : String → Option String) (now : ℕ) (s : PollState)
    (u : PollingTask) (hm : KeysMatch s.activeTasks) :
    KeysMatch (pollTask f now s u).1.activeTasks := by
  obtain ⟨v, hv, hshape | hshape⟩ := pollTask_state_shape f now s u
  · rw [hshape]; exact KeysMatch_mapUpdate _ _ _ hm hv.symm
  · rw [hshape]; exact KeysMatch_mapDelete _ _ (KeysMatch_mapUpdate _ _ _ hm hv.symm)

/-! ## pollList lemmas -/

theorem pollList_no_id (f : String → Option String) (now : ℕ) (id : String)
    (l : List PollingTask) : ∀ s : PollState,
    (∀ u ∈ l, u.transferId ≠ id) →
    (∀ e ∈ (pollList f now l s).2, tagOf e ≠ id) ∧
    countKey (pollList f now l s).1.activeTasks id = countKey s.activeTasks id ∧
    (KeysMatch s.activeTasks → KeysMatch (pollList f now l s).1.activeTasks) := by
  induction l with
  | nil =>
    intro s _
    refine ⟨?_, rfl, fun h => h⟩
    intro e he
    simp [pollList] at he
  | cons u rest ih =>
    intro s h
    have hu : u.transferId ≠ id := h u (List.mem_cons_self _ _)
    have hrest := ih (pollTask f now s u).1 (fun v hv => h v (List.mem_cons_of_mem _ hv))
    simp only [pollList]
    refine ⟨?_, ?_, ?_⟩
    · intro e he
      rcases List.mem_append.mp he with h1 | h1
      · rw [pollTask_tags f now s u e h1]; exact hu
      · exact hrest.1 e h1
    · rw [hrest.2.1, pollTask_countKey_ne f now s u id hu]
    · intro hm
      exact hrest.2.2 (pollTask_keysMatch f now s u hm)

theorem pollList_append (f : String → Option String) (now : ℕ)
    (l₁ l₂ : List PollingTask) : ∀ s : PollState,
    pollList f now (l₁ ++ l₂) s
      = ((pollList f now l₂ (pollList f now l₁ s).1).1,
         (pollList f now l₁ s).2 ++ (pollList f now l₂ (pollList f now l₁ s).1).2) := by
  induction l₁ with
  | nil => intro s; simp [pollList]
  | cons u rest ih =>
    intro s
    simp only [List.cons_append, pollList, List.append_eq]
    rw [ih]
    simp [List.append_assoc]

/-! ## Event counting from tags -/

theorem countTimeout_eq_zero_of_tags (id : String) (evs : List PollEvent)
    (h : ∀ e ∈ evs, tagOf e ≠ id) : countTimeout id evs = 0 := by
  rw [countTimeout, List.countP_eq_zero]
  intro e he
  have ht := h e he
  cases e <;> simp [tagOf] at ht ⊢
  exact ht

theorem countFetch_eq_zero_of_tags (id : String) (evs : List PollEvent)
    (h : ∀ e ∈ evs, tagOf e ≠ id) : countFetch id evs = 0 := by
  rw [countFetch, List.countP_eq_zero]
  intro e he
  have ht := h e he
  cases e <;> simp [tagOf] at ht ⊢
  exact ht

theorem countTimeout_append (id : String) (a b : List PollEvent) :
    countTimeout id (a ++ b) = countTimeout id a + countTimeout id b := by
  simp [countTimeout, List.countP_append]

theorem countFetch_append (id : String) (a b : List PollEvent) :
    countFetch id (a ++ b) = countFetch id a + countFetch id b := by
  simp [countFetch, List.countP_append]

/-! ## Whole-tick lemmas -/

theorem pollAllTasks_no_id (f : String → Option String) (now : ℕ) (s : PollState)
    (id : String) (hkm : KeysMatch s.activeTasks) (hck : countKey s.activeTasks id = 0) :
    (∀ e ∈ (pollAllTasks f now s).2, tagOf e ≠ id) ∧
    countKey (pollAllTasks f now s).1.activeTasks id = 0 ∧
    KeysMatch (pollAllTasks f now s).1.activeTasks := by
  have hvals : ∀ u ∈ s.activeTasks.map Prod.snd, u.transferId ≠ id := by
    intro u hu
    obtain ⟨p, hp, hpu⟩ := List.mem_map.mp hu
    have h1 := (countKey_eq_zero_iff_keys_ne s.activeTasks id).mp hck p hp
    have h2 := hkm p hp
    rw [← hpu, ← h2]
    exact h1
  have h := pollList_no_id f now id (s.activeTasks.map Prod.snd) s hvals
  exact ⟨h.1, by rw [pollAllTasks, h.2.1, hck], h.2.2 hkm⟩

theorem runTicks_no_id (id : String) (ticks : List (ℕ × (String → Option String))) :
    ∀ s : PollState, KeysMatch s.activeTasks → countKey s.activeTasks id = 0 →
    ∀ e ∈ (runTicks ticks s).2, tagOf e ≠ id := by
  induction ticks with
  | nil =>
    intro s _ _ e he
    simp [runTicks] at he
  | cons tk rest ih =>
    intro s hkm hck e he
    obtain ⟨now, f⟩ := tk
    simp only [runTicks] at he
    have h1 := pollAllTasks_no_id f now s id hkm hck
    rcases List.mem_append.mp he with h | h
    · exact h1.1 e h
    · exact ih (pollAllTasks f now s).1 h1.2.2 h1.2.1 e h

/-- Backbone of the C9 analysis: polling a snapshot that contains, between
two id-free segments, one task for the tracked id whose timeout condition
holds, emits exactly one timeout notification for that id, fetches no
status for it, and removes it from the task map. -/
theorem pollList_timeout_main (f : String → Option String) (now : ℕ) (id : String)
    (task : PollingTask) (L₁ L₂ : List PollingTask) (s : PollState)
    (hv₁ : ∀ u ∈ L₁, u.transferId ≠ id) (hv₂ : ∀ u ∈ L₂, u.transferId ≠ id)
    (htid : task.transferId = id)
    (hck : countKey s.activeTasks id = 1)
    (hkm : KeysMatch s.activeTasks)
    (htime : MAX_POLL_DURATION < now - task.startTime ∨ MAX_POLL_COUNT < task.pollCount + 1) :
    countTimeout id (pollList f now (L₁ ++ task :: L₂) s).2 = 1 ∧
    countFetch id (pollList f now (L₁ ++ task :: L₂) s).2 = 0 ∧
    countKey (pollList f now (L₁ ++ task :: L₂) s).1.activeTasks id = 0 ∧
    KeysMatch (pollList f now (L₁ ++ task :: L₂) s).1.activeTasks := by
  rcases hphase₁ : pollList f now L₁ s with ⟨s₁, E₁⟩
  have h₁ := pollList_no_id f now id L₁ s hv₁
  rw [hphase₁] at h₁
  have htags₁ : ∀ e ∈ E₁, tagOf e ≠ id := h₁.1
  have hck₁ : countKey s₁.activeTasks id = 1 :=
    (show countKey s₁.activeTasks id = countKey s.activeTasks id from h₁.2.1).trans hck
  have hkm₁ : KeysMatch s₁.activeTasks := h₁.2.2 hkm
  have hmid := pollTask_timeout f now s₁ task htime
  set s₂ : PollState := stopPolling
    { s₁ with activeTasks :=
        mapUpdate s₁.activeTasks task.transferId { task with pollCount := task.pollCount + 1 } }
    task.transferId with hs₂
  have hacts₂ : s₂.activeTasks
      = mapDelete (mapUpdate s₁.activeTasks task.transferId
          { task with pollCount := task.pollCount + 1 }) task.transferId := by
    rw [hs₂]; rfl
  have hck₂ : countKey s₂.activeTasks id = 0 := by
    rw [hacts₂, htid, countKey_mapDelete_self, countKey_mapUpdate_self, hck₁]
  have hkm₂ : KeysMatch s₂.activeTasks := by
    rw [hacts₂]
    exact KeysMatch_mapDelete _ _ (KeysMatch_mapUpdate _ _ _ hkm₁ rfl)
  rcases hphase₂ : pollList f now L₂ s₂ with ⟨s₃, E₃⟩
  have h₂ := pollList_no_id f now id L₂ s₂ hv₂
  rw [hphase₂] at h₂
  have htags₃ : ∀ e ∈ E₃, tagOf e ≠ id := h₂.1
  have hck₃ : countKey s₃.activeTasks id = 0 :=
    (show countKey s₃.activeTasks id = countKey s₂.activeTasks id from h₂.2.1).trans hck₂
  have hkm₃ : KeysMatch s₃.activeTasks := h₂.2.2 hkm₂
  have heq : pollList f now (L₁ ++ task :: L₂) s
      = (s₃, E₁ ++ ([PollEvent.timeoutMsg task.transferId task.chatId] ++ E₃)) := by
    rw [pollList_append, hphase₁]
    dsimp only
    simp only [pollList]
    rw [hmid]
    dsimp only
    rw [hphase₂]
  rw [heq]
  dsimp only
  refine ⟨?_, ?_, hck₃, hkm₃⟩
  · rw [countTimeout_append, countTimeout_append,
      countTimeout_eq_zero_of_tags id E₁ htags₁, countTimeout_eq_zero_of_tags id E₃ htags₃]
    simp [countTimeout, List.countP_cons, htid]
  · rw [countFetch_append, countFetch_append,
      countFetch_eq_zero_of_tags id E₁ htags₁, countFetch_eq_zero_of_tags id E₃ htags₃]
    simp [countFetch, List.countP_cons]

/-- C9: on a tick where the tracked task's elapsed time exceeds
MAX_POLL_DURATION or its just-incremented poll count exceeds
MAX_POLL_COUNT (reaching 121), the poller emits exactly one timeout
notification for that task, performs no status fetch for it, and removes
it; on every later tick, whatever the clock and backend oracle do, the
task is gone: no fetch and no further timeout notification for that id. -/
theorem C9_timeout_tick (f : String → Option String) (now : ℕ) (st : PollState)
    (id : String) (task : PollingTask) (m₁ m₂ : List (String × PollingTask))
    (hsplit : st.activeTasks = m₁ ++ (id, task) :: m₂)
    (hkm : KeysMatch st.activeTasks)
    (hm₁ : ∀ p ∈ m₁, p.1 ≠ id) (hm₂ : ∀ p ∈ m₂, p.1 ≠ id)
    (htime : MAX_POLL_DURATION < now - task.startTime ∨ MAX_POLL_COUNT < task.pollCount + 1) :
    countTimeout id (pollAllTasks f now st).2 = 1 ∧
    countFetch id (pollAllTasks f now st).2 = 0 ∧
    mapGet (pollAllTasks f now st).1.activeTasks id = none ∧
    ∀ ticks, countTimeout id (runTicks ticks (pollAllTasks f now st).1).2 = 0 ∧
      countFetch id (runTicks ticks (pollAllTasks f now st).1).2 = 0 := by
  have hmem : (id, task) ∈ st.activeTasks := by
    rw [hsplit]; exact List.mem_append_right _ (List.mem_cons_self _ _)
  have htid : task.transferId = id := (hkm (id, task) hmem).symm
  have hv₁ : ∀ u ∈ m₁.map Prod.snd, u.transferId ≠ id := by
    intro u hu
    obtain ⟨p, hp, hpu⟩ := List.mem_map.mp hu
    have hpm : p ∈ st.activeTasks := by rw [hsplit]; exact List.mem_append_left _ hp
    have hk := hkm p hpm
    rw [← hpu, ← hk]
    exact hm₁ p hp
  have hv₂ : ∀ u ∈ m₂.map Prod.snd, u.transferId ≠ id := by
    intro u hu
    obtain ⟨p, hp, hpu⟩ := List.mem_map.mp hu
    have hpm : p ∈ st.activeTasks := by
      rw [hsplit]; exact List.mem_append_right _ (List.mem_cons_of_mem _ hp)
    have hk := hkm p hpm
    rw [← hpu, ← hk]
    exact hm₂ p hp
  have hck : countKey st.activeTasks id = 1 := by
    have h1 : countKey m₁ id = 0 := (countKey_eq_zero_iff_keys_ne m₁ id).mpr hm₁
    have h2 : countKey m₂ id = 0 := (countKey_eq_zero_iff_keys_ne m₂ id).mpr hm₂
    have hmid2 : countKey ((id, task) :: m₂) id = 1 := by
      rw [countKey, List.countP_cons]
      rw [countKey] at h2
      simp [h2]
    rw [hsplit, countKey_append, h1, hmid2]
  have hsnap : st.activeTasks.map Prod.snd = m₁.map Prod.snd ++ task :: m₂.map Prod.snd := by
    rw [hsplit]; simp
  have hmain := pollList_timeout_main f now id task (m₁.map Prod.snd) (m₂.map Prod.snd) st
    hv₁ hv₂ htid hck hkm htime
  have hpa : pollAllTasks f now st
      = pollList f now (m₁.map Prod.snd ++ task :: m₂.map Prod.snd) st := by
    rw [pollAllTasks, hsnap]
  rw [hpa]
  refine ⟨hmain.1, hmain.2.1, ?_, ?_⟩
  · exact mapGet_none_of_countKey_zero _ _ hmain.2.2.1
  · intro ticks
    have htags := runTicks_no_id id ticks
      (pollList f now (m₁.map Prod.snd ++ task :: m₂.map Prod.snd) st).1
      hmain.2.2.2 hmain.2.2.1
    exact ⟨countTimeout_eq_zero_of_tags _ _ htags, countFetch_eq_zero_of_tags _ _ htags⟩

/-- C9 witness: a single tracked task started at time 0, polled at time
MAX_POLL_DURATION + 1, then one later tick with a different oracle. -/
theorem C9_witness :
    countTimeout "tx1"
      (pollAllTasks (fun _ => some "PENDING") (MAX_POLL_DURATION + 1) witnessPollState).2 = 1 ∧
    countFetch "tx1"
      (pollAllTasks (fun _ => some "PENDING") (MAX_POLL_DURATION + 1) witnessPollState).2 = 0 ∧
    mapGet (pollAllTasks (fun _ => some "PENDING") (MAX_POLL_DURATION + 1)
      witnessPollState).1.activeTasks "tx1" = none ∧
    countTimeout "tx1" (runTicks [(MAX_POLL_DURATION + 2, fun _ => some "PAID")]
      (pollAllTasks (fun _ => some "PENDING") (MAX_POLL_DURATION + 1)
        witnessPollState).1).2 = 0 ∧
    countFetch "tx1" (runTicks [(MAX_POLL_DURATION + 2, fun _ => some "PAID")]
      (pollAllTasks (fun _ => some "PENDING") (MAX_POLL_DURATION + 1)
        witnessPollState).1).2 = 0 := by
  have h := C9_timeout_tick (fun _ => some "PENDING") (MAX_POLL_DURATION + 1)
    witnessPollState "tx1" ⟨"tx1", "chatA", 0, "PENDING", 0⟩ [] [] rfl
    (by intro p hp; simp [witnessPollState] at hp; subst hp; rfl)
    (by simp) (by simp) (Or.inl (by decide))
  obtain ⟨hlater₁, hlater₂⟩ := h.2.2.2 [(MAX_POLL_DURATION + 2, fun _ => some "PAID")]
  exact ⟨h.1, h.2.1, h.2.2.1, hlater₁, hlater₂⟩

end TrustBridge
